import Mathlib

/-!
Verification of the runner-backend engine: run lifecycle, stat reconciliation,
achievement evaluation, cursor pagination and geospatial nearby search.

The definitions below are a shallow embedding of the TypeScript source
(`src/routes/messages.ts` runs/users routers, `src/routes/posts.ts` feed).
Numeric fields use ℚ/ℤ (JS numbers idealized as exact arithmetic); the
geospatial part uses ℝ because the source computes with sin/cos/atan2.
-/

namespace Runner

/-- JS `Math.floor(xp / 1000) + 1`, the level formula used by the complete route. -/
def jsLevel (xp : ℤ) : ℤ := ⌊(xp : ℚ) / 1000⌋ + 1

/-- JS truthiness of an optional numeric value: `undefined`, `null` and `0` are falsy. -/
def jsTruthy : Option ℚ → Bool
  | some x => decide (x ≠ 0)
  | none => false

/-- JS `v || null` applied to an optional numeric field: a missing value or a
supplied `0` becomes `null`; any other value is kept. -/
def jsOrNull : Option ℚ → Option ℚ
  | some x => if x = 0 then none else some x
  | none => none

/-- A stored run coordinate (`RunCoordinate` row). -/
structure Coord where
  latitude : ℚ
  longitude : ℚ
  altitude : Option ℚ
  speed : Option ℚ
  accuracy : Option ℚ
  heading : Option ℚ
  heartRate : Option ℚ
  timestamp : ℤ
  deriving Repr, DecidableEq

/-- An incoming coordinate in a `POST /:id/coordinates` batch, before the
`|| null` normalization applied by the route. -/
structure CoordInput where
  latitude : ℚ
  longitude : ℚ
  altitude : Option ℚ
  speed : Option ℚ
  accuracy : Option ℚ
  heading : Option ℚ
  heartRate : Option ℚ
  timestamp : ℤ
  deriving Repr, DecidableEq

/-- The per-coordinate mapping in `POST /:id/coordinates`:
`altitude: coord.altitude || null`, etc. -/
def normalizeCoord (c : CoordInput) : Coord :=
  { latitude := c.latitude
    longitude := c.longitude
    altitude := jsOrNull c.altitude
    speed := jsOrNull c.speed
    accuracy := jsOrNull c.accuracy
    heading := jsOrNull c.heading
    heartRate := jsOrNull c.heartRate
    timestamp := c.timestamp }

/-- A stored run split (`RunSplit` row). -/
structure Split where
  km : ℤ
  time : ℚ
  pace : ℚ
  elevation : ℚ
  avgHeartRate : Option ℚ
  deriving Repr, DecidableEq

/-- A `Run` row, restricted to the fields the runs router reads or writes. -/
structure Run where
  isCompleted : Bool
  isPaused : Bool
  startTime : ℤ
  endTime : Option ℤ
  distance : ℚ
  duration : ℤ
  avgPace : ℚ
  maxPace : ℚ
  minPace : ℚ
  calories : ℤ
  elevation : ℚ
  elevationGain : ℚ
  elevationLoss : ℚ
  routeId : Option ℕ
  coordinates : List Coord
  splits : List Split
  deriving Repr, DecidableEq

/-- A `User` row, restricted to the fields the engine reads or writes. -/
structure User where
  totalDistance : ℚ
  totalRuns : ℤ
  totalTime : ℤ
  xp : ℤ
  level : ℤ
  latitude : Option ℚ
  longitude : Option ℚ
  lastLocationUpdate : Option ℤ
  isCurrentlyRunning : Bool
  currentRunId : Option ℕ
  deriving Repr, DecidableEq

/-- Achievement rule kinds (`achievement.type`). -/
inductive AchType where
  | TOTAL_DISTANCE
  | TOTAL_RUNS
  | SINGLE_RUN_DISTANCE
  | SINGLE_RUN_PACE
  deriving Repr, DecidableEq

/-- An `Achievement` rule row. -/
structure Achievement where
  id : ℕ
  type : AchType
  threshold : ℚ
  xpReward : ℤ
  name : String
  deriving Repr, DecidableEq

/-- A `UserAchievement` row for the (single, implicit) user. -/
structure UserAch where
  achievementId : ℕ
  progress : ℚ
  unlockedAt : Option ℤ
  deriving Repr, DecidableEq

/-- The persistent state touched by the engine, seen from one authenticated
user (the runs router always scopes queries by `req.userId`). -/
structure DB where
  user : User
  runs : List (ℕ × Run)
  achievements : List Achievement
  userAchievements : List UserAch
  notifications : List String
  now : ℤ
  deriving Repr, DecidableEq

/-- `AppError(message, status)` as thrown by the routes. -/
structure AppError where
  message : String
  status : ℕ
  deriving Repr, DecidableEq

/-- `prisma.run.findFirst({ where: { id, userId: req.userId } })`. -/
def findRun (rs : List (ℕ × Run)) (rid : ℕ) : Option Run :=
  (rs.find? (fun p => p.1 = rid)).map (·.2)

/-- Update the run stored under `rid` with `f` (a `prisma.run.update`). -/
def modifyRun (rs : List (ℕ × Run)) (rid : ℕ) (f : Run → Run) : List (ℕ × Run) :=
  rs.map (fun p => if p.1 = rid then (p.1, f p.2) else p)

/-- `prisma.run.delete({ where: { id } })` (cascades are implicit: the
coordinates and splits live inside the run record here). -/
def removeRun (rs : List (ℕ × Run)) (rid : ℕ) : List (ℕ × Run) :=
  rs.filter (fun p => p.1 ≠ rid)

/-- `POST /start`: create an ACTIVE run; the `latitude && longitude` guard
uses JS truthiness, so a `0` coordinate counts as absent. -/
def startRun (db : DB) (rid : ℕ) (routeId : Option ℕ)
    (latitude longitude : Option ℚ) : DB :=
  let newRun : Run :=
    { isCompleted := false, isPaused := false, startTime := db.now, endTime := none
      distance := 0, duration := 0, avgPace := 0, maxPace := 0, minPace := 0
      calories := 0, elevation := 0, elevationGain := 0, elevationLoss := 0
      routeId := routeId, coordinates := [], splits := [] }
  let db1 : DB := { db with runs := db.runs ++ [(rid, newRun)] }
  let locGiven := jsTruthy latitude && jsTruthy longitude
  let u1 : User :=
    { db1.user with
      isCurrentlyRunning := true
      currentRunId := some rid
      latitude := if locGiven then latitude else db1.user.latitude
      longitude := if locGiven then longitude else db1.user.longitude
      lastLocationUpdate := if locGiven then some db1.now else db1.user.lastLocationUpdate }
  let db2 : DB := { db1 with user := u1 }
  if locGiven then
    { db2 with
      runs := modifyRun db2.runs rid (fun r =>
        { r with coordinates := r.coordinates ++
            [{ latitude := latitude.getD 0, longitude := longitude.getD 0
               altitude := none, speed := none, accuracy := none, heading := none
               heartRate := none, timestamp := db2.now }] }) }
  else db2

/-- `POST /:id/pause`: toggle `isPaused`; rejected once completed. -/
def pauseRun (db : DB) (rid : ℕ) : DB × Option AppError :=
  match findRun db.runs rid with
  | none => (db, some ⟨"Run not found", 404⟩)
  | some run =>
    if run.isCompleted then (db, some ⟨"Run is already completed", 400⟩)
    else
      ({ db with runs := modifyRun db.runs rid (fun r => { r with isPaused := !run.isPaused }) },
       none)

/-- `POST /:id/coordinates`: append the batch (order preserved) and move the
user's last-known location to the batch's final coordinate. -/
def addCoordinates (db : DB) (rid : ℕ) (coords : List CoordInput) : DB × Option AppError :=
  match findRun db.runs rid with
  | none => (db, some ⟨"Run not found", 404⟩)
  | some run =>
    if run.isCompleted then (db, some ⟨"Cannot add coordinates to completed run", 400⟩)
    else
      let db1 : DB :=
        { db with runs := modifyRun db.runs rid (fun r =>
            { r with coordinates := r.coordinates ++ coords.map normalizeCoord }) }
      match coords.getLast? with
      | some lc =>
        ({ db1 with user := { db1.user with
            latitude := some lc.latitude
            longitude := some lc.longitude
            lastLocationUpdate := some db1.now } }, none)
      | none => (db1, none)

/-- The validated body of `POST /:id/complete` (zod fills each numeric field
with its `.default(0)`, and each is constrained to be ≥ 0). -/
structure CompleteBody where
  distance : ℚ
  duration : ℤ
  avgPace : ℚ
  maxPace : ℚ
  minPace : ℚ
  calories : ℤ
  elevation : ℚ
  elevationGain : ℚ
  elevationLoss : ℚ
  splits : List Split
  deriving Repr, DecidableEq

/-- The `prisma.userAchievement.upsert` keyed by (user, achievement): update
`progress` always and `unlockedAt` only when unlocking (`undefined` leaves the
stored value in place); create the row when it does not exist yet. -/
def upsertUA (l : List UserAch) (k : ℕ) (progress : ℚ) (shouldUnlock : Bool)
    (now : ℤ) : List UserAch :=
  if l.any (fun a => a.achievementId = k) then
    l.map (fun a =>
      if a.achievementId = k then
        { a with progress := progress
                 unlockedAt := if shouldUnlock then some now else a.unlockedAt }
      else a)
  else
    l ++ [{ achievementId := k, progress := progress
            unlockedAt := if shouldUnlock then some now else none }]

/-- One iteration of the `checkAchievements` loop. `snapU`/`snapUAs` are the
user row and its achievements as loaded once at the top of the helper; `acc`
is the live database that the loop's writes go to. -/
def achStep (snapU : User) (snapUAs : List UserAch) (runDistance : ℚ) (run : Run)
    (acc : DB) (ach : Achievement) : DB :=
  let existing := snapUAs.find? (fun a => a.achievementId = ach.id)
  if (existing.bind (·.unlockedAt)).isSome then acc
  else
    let pu : ℚ × Bool :=
      match ach.type with
      | .TOTAL_DISTANCE => (snapU.totalDistance, decide (ach.threshold ≤ snapU.totalDistance))
      | .TOTAL_RUNS => ((snapU.totalRuns : ℚ), decide (ach.threshold ≤ (snapU.totalRuns : ℚ)))
      | .SINGLE_RUN_DISTANCE => (runDistance, decide (ach.threshold ≤ runDistance))
      | .SINGLE_RUN_PACE => (run.avgPace, decide (0 < run.avgPace ∧ run.avgPace ≤ ach.threshold))
    let acc1 : DB :=
      { acc with userAchievements := upsertUA acc.userAchievements ach.id pu.1 pu.2 acc.now }
    if pu.2 && !(existing.bind (·.unlockedAt)).isSome then
      { acc1 with
        user := { acc1.user with xp := acc1.user.xp + ach.xpReward }
        notifications := acc1.notifications ++ ["Achievement Unlocked!"] }
    else acc1

/-- Whether one `checkAchievements` iteration awards its rule's XP: the rule is
not yet unlocked in the snapshot and its unlock condition holds. This mirrors
the `shouldUnlock && !existing?.unlockedAt` guard of the loop verbatim. -/
def achAwards (snapU : User) (snapUAs : List UserAch) (runDistance : ℚ) (run : Run)
    (ach : Achievement) : Bool :=
  let existing := snapUAs.find? (fun a => a.achievementId = ach.id)
  let pu : ℚ × Bool :=
    match ach.type with
    | .TOTAL_DISTANCE => (snapU.totalDistance, decide (ach.threshold ≤ snapU.totalDistance))
    | .TOTAL_RUNS => ((snapU.totalRuns : ℚ), decide (ach.threshold ≤ (snapU.totalRuns : ℚ)))
    | .SINGLE_RUN_DISTANCE => (runDistance, decide (ach.threshold ≤ runDistance))
    | .SINGLE_RUN_PACE => (run.avgPace, decide (0 < run.avgPace ∧ run.avgPace ≤ ach.threshold))
  pu.2 && !(existing.bind (fun a => a.unlockedAt)).isSome

/-- The `checkAchievements(userId, runDistance, run)` helper: load the user and
its achievements once, then fold the rule list over the live database. -/
def checkAchievements (db : DB) (runDistance : ℚ) (run : Run) : DB :=
  db.achievements.foldl (achStep db.user db.userAchievements runDistance run) db

/-- The run record as stored by `POST /:id/complete`: end time and terminal
metrics fixed, COMPLETED, pause flag cleared. -/
def completedRunOf (run : Run) (now : ℤ) (b : CompleteBody) : Run :=
  { run with
    endTime := some now
    distance := b.distance, duration := b.duration
    avgPace := b.avgPace, maxPace := b.maxPace, minPace := b.minPace
    calories := b.calories, elevation := b.elevation
    elevationGain := b.elevationGain, elevationLoss := b.elevationLoss
    isCompleted := true, isPaused := false }

/-- The `prisma.user.update` of the complete route: add the run's deltas to
the aggregates and the distance XP, clear the running flags. -/
def completionIncrement (u : User) (b : CompleteBody) : User :=
  { u with
    totalDistance := u.totalDistance + b.distance
    totalRuns := u.totalRuns + 1
    totalTime := u.totalTime + b.duration
    xp := u.xp + ⌊b.distance * 10⌋
    isCurrentlyRunning := false
    currentRunId := none }

/-- The user row as `checkAchievements` snapshots it during a completion:
aggregates incremented and the level raised when the recomputed level grew. -/
def completionUser (u : User) (b : CompleteBody) : User :=
  let u1 := completionIncrement u b
  { u1 with level := if u1.level < jsLevel u1.xp then jsLevel u1.xp else u1.level }

/-- `POST /:id/complete`: set terminal metrics, mark COMPLETED, add the run's
deltas to the user aggregates, raise the level if the recomputed level grew,
then run achievement checks and notifications. -/
def completeRun (db : DB) (rid : ℕ) (b : CompleteBody) : DB × Option AppError :=
  match findRun db.runs rid with
  | none => (db, some ⟨"Run not found", 404⟩)
  | some run =>
    if run.isCompleted then (db, some ⟨"Run is already completed", 400⟩)
    else
      let updatedRun : Run := completedRunOf run db.now b
      let db1 : DB := { db with runs := modifyRun db.runs rid (fun _ => updatedRun) }
      let db2 : DB :=
        { db1 with runs := modifyRun db1.runs rid (fun r => { r with splits := r.splits ++ b.splits }) }
      let u1 : User := completionIncrement db2.user b
      let db4 : DB :=
        { db2 with
          user := completionUser db2.user b
          notifications :=
            db2.notifications ++
              (if u1.level < jsLevel u1.xp then ["Level Up!"] else []) }
      let db5 := checkAchievements db4 b.distance updatedRun
      ({ db5 with notifications := db5.notifications ++ ["Run Completed"] }, none)

/-- The total achievement XP a completion awards: sum of the rewards of the
rules that `checkAchievements` unlocks when run on the post-increment user
snapshot, the stored user-achievement rows and this run's metrics. -/
def completionAwards (db : DB) (run : Run) (b : CompleteBody) : ℤ :=
  (db.achievements.map (fun ach =>
    if achAwards (completionUser db.user b) db.userAchievements b.distance
        (completedRunOf run db.now b) ach
    then ach.xpReward else 0)).sum

theorem completedRunOf_isCompleted (run : Run) (now : ℤ) (b : CompleteBody) :
    (completedRunOf run now b).isCompleted = true := rfl

theorem completedRunOf_distance (run : Run) (now : ℤ) (b : CompleteBody) :
    (completedRunOf run now b).distance = b.distance := rfl

theorem completedRunOf_duration (run : Run) (now : ℤ) (b : CompleteBody) :
    (completedRunOf run now b).duration = b.duration := rfl

theorem completionUser_totalDistance (u : User) (b : CompleteBody) :
    (completionUser u b).totalDistance = u.totalDistance + b.distance := rfl

theorem completionUser_totalRuns (u : User) (b : CompleteBody) :
    (completionUser u b).totalRuns = u.totalRuns + 1 := rfl

theorem completionUser_totalTime (u : User) (b : CompleteBody) :
    (completionUser u b).totalTime = u.totalTime + b.duration := rfl

theorem completionUser_xp (u : User) (b : CompleteBody) :
    (completionUser u b).xp = u.xp + ⌊b.distance * 10⌋ := rfl

/-- Folding equation for `completionAwards`. -/
theorem completionAwards_fold (db : DB) (run : Run) (b : CompleteBody) :
    (db.achievements.map (fun ach =>
      if achAwards (completionUser db.user b) db.userAchievements b.distance
          (completedRunOf run db.now b) ach
      then ach.xpReward else 0)).sum = completionAwards db run b := rfl

/-- `DELETE /:id`: if the run was completed, decrement the four aggregates by
the run's stored terminal metrics, then remove the run. The level and any
achievement XP are not touched. -/
def deleteRun (db : DB) (rid : ℕ) : DB × Option AppError :=
  match findRun db.runs rid with
  | none => (db, some ⟨"Run not found", 404⟩)
  | some run =>
    let db1 : DB :=
      if run.isCompleted then
        { db with user := { db.user with
            totalDistance := db.user.totalDistance - run.distance
            totalRuns := db.user.totalRuns - 1
            totalTime := db.user.totalTime - run.duration
            xp := db.user.xp - ⌊run.distance * 10⌋ } }
      else db
    ({ db1 with runs := removeRun db1.runs rid }, none)

/-! ### Concrete states used by scenario theorems -/

/-- A fresh user with empty aggregates, mid-run. -/
def demoUser : User :=
  { totalDistance := 0, totalRuns := 0, totalTime := 0, xp := 0, level := 1
    latitude := none, longitude := none, lastLocationUpdate := none
    isCurrentlyRunning := true, currentRunId := some 1 }

/-- A freshly started, still-active run. -/
def demoRun : Run :=
  { isCompleted := false, isPaused := false, startTime := 0, endTime := none
    distance := 0, duration := 0, avgPace := 0, maxPace := 0, minPace := 0
    calories := 0, elevation := 0, elevationGain := 0, elevationLoss := 0
    routeId := none, coordinates := [], splits := [] }

/-- A 5 km TOTAL_DISTANCE rule awarding 100 XP. -/
def demoAch : Achievement :=
  { id := 1, type := .TOTAL_DISTANCE, threshold := 5, xpReward := 100, name := "5K Club" }

/-- Fresh user, one active run, one locked 5 km achievement. -/
def demoDb : DB :=
  { user := demoUser, runs := [(1, demoRun)], achievements := [demoAch]
    userAchievements := [], notifications := [], now := 1000 }

/-- Completion payload for a 5 km run. -/
def demoBody : CompleteBody :=
  { distance := 5, duration := 1800, avgPace := 6, maxPace := 5, minPace := 7
    calories := 300, elevation := 0, elevationGain := 10, elevationLoss := 10, splits := [] }

/-- A user sitting just below a level boundary. -/
def nearLevelUser : User :=
  { demoUser with xp := 950 }

/-- State that unlocks a TOTAL_RUNS achievement on the next completion while
the user's xp sits at 950. -/
def nearLevelDb : DB :=
  { user := nearLevelUser, runs := [(1, demoRun)]
    achievements := [{ id := 2, type := .TOTAL_RUNS, threshold := 1, xpReward := 100,
                       name := "First Run" }]
    userAchievements := [], notifications := [], now := 1000 }

/-- Zero-distance completion payload. -/
def zeroBody : CompleteBody :=
  { distance := 0, duration := 0, avgPace := 0, maxPace := 0, minPace := 0
    calories := 0, elevation := 0, elevationGain := 0, elevationLoss := 0, splits := [] }

/-- An already-unlocked record for achievement 1. -/
def unlockedUA : UserAch :=
  { achievementId := 1, progress := 7, unlockedAt := some 500 }

/-- State in which achievement 1 is already unlocked. -/
def unlockedDb : DB :=
  { user := { demoUser with totalDistance := 7, totalRuns := 1, xp := 170 }
    runs := [(1, demoRun)], achievements := [demoAch]
    userAchievements := [unlockedUA], notifications := [], now := 2000 }

/-- A completed run as stored after `demoBody` metrics. -/
def completedRun : Run :=
  { demoRun with
    isCompleted := true, endTime := some 1000, distance := 5,
    duration := 1800, avgPace := 6, maxPace := 5, minPace := 7, calories := 300,
    elevationGain := 10, elevationLoss := 10 }

/-- State holding one completed run, for the terminal-state guard theorems. -/
def completedDb : DB :=
  { user := { demoUser with
              totalDistance := 5, totalRuns := 1, totalTime := 1800,
              xp := 150, isCurrentlyRunning := false, currentRunId := none }
    runs := [(1, completedRun)], achievements := [demoAch]
    userAchievements := [⟨1, 5, some 1000⟩], notifications := [], now := 3000 }

/-- A user with a recorded last-known location, for the start-run theorem. -/
def locatedDb : DB :=
  { user := { demoUser with
              latitude := some 42, longitude := some 43,
              isCurrentlyRunning := false, currentRunId := none }
    runs := [], achievements := [], userAchievements := [], notifications := []
    now := 4000 }

/-! ### Helper lemmas about the store -/

/-- Looking a run up after updating it in place finds the updated run. -/
theorem findRun_modifyRun_self (rs : List (ℕ × Run)) (rid : ℕ) (f : Run → Run)
    (r : Run) (h : findRun rs rid = some r) :
    findRun (modifyRun rs rid f) rid = some (f r) := by
  induction rs with
  | nil => simp [findRun] at h
  | cons p rest ih =>
    by_cases hp : p.1 = rid
    · rw [findRun, List.find?_cons_of_pos _ (by simpa using hp)] at h
      simp only [Option.map_some', Option.some.injEq] at h
      rw [modifyRun, List.map_cons, if_pos hp, findRun,
        List.find?_cons_of_pos _ (by simpa using hp), Option.map_some', h]
    · rw [findRun, List.find?_cons_of_neg _ (by simpa using hp)] at h
      rw [modifyRun, List.map_cons, if_neg hp, findRun,
        List.find?_cons_of_neg _ (by simpa using hp)]
      exact ih h

/-- `achStep` never touches the run store. -/
theorem achStep_runs (s : User) (sUAs : List UserAch) (d : ℚ) (r : Run)
    (acc : DB) (ach : Achievement) : (achStep s sUAs d r acc ach).runs = acc.runs := by
  simp only [achStep]
  split
  · rfl
  · split <;> rfl

/-- `achStep` never touches the aggregate counters other than xp, nor the level. -/
theorem achStep_user_aggregates (s : User) (sUAs : List UserAch) (d : ℚ) (r : Run)
    (acc : DB) (ach : Achievement) :
    (achStep s sUAs d r acc ach).user.totalDistance = acc.user.totalDistance ∧
    (achStep s sUAs d r acc ach).user.totalRuns = acc.user.totalRuns ∧
    (achStep s sUAs d r acc ach).user.totalTime = acc.user.totalTime ∧
    (achStep s sUAs d r acc ach).user.level = acc.user.level := by
  simp only [achStep]
  split
  · exact ⟨rfl, rfl, rfl, rfl⟩
  · split <;> exact ⟨rfl, rfl, rfl, rfl⟩

/-- One loop iteration adds exactly its rule's `xpReward` when `achAwards`
holds and leaves xp unchanged otherwise. -/
theorem achStep_xp (s : User) (sUAs : List UserAch) (d : ℚ) (r : Run)
    (acc : DB) (ach : Achievement) :
    (achStep s sUAs d r acc ach).user.xp
      = acc.user.xp + (if achAwards s sUAs d r ach then ach.xpReward else 0) := by
  simp only [achStep, achAwards]
  by_cases hskip : (((sUAs.find? (fun a => a.achievementId = ach.id)).bind
      (fun a => a.unlockedAt)).isSome) = true
  · rw [if_pos hskip]
    simp [hskip]
  · have hf : (((sUAs.find? (fun a => a.achievementId = ach.id)).bind
        (fun a => a.unlockedAt)).isSome) = false := by
      simpa using hskip
    rw [if_neg hskip]
    simp only [hf, Bool.not_false, Bool.and_true]
    split
    · rfl
    · simp

/-- The run store is untouched by the whole achievement loop. -/
theorem foldl_achStep_runs (s : User) (sUAs : List UserAch) (d : ℚ) (r : Run)
    (l : List Achievement) (acc : DB) :
    (l.foldl (achStep s sUAs d r) acc).runs = acc.runs := by
  induction l generalizing acc with
  | nil => rfl
  | cons ach rest ih =>
    rw [List.foldl_cons, ih (achStep s sUAs d r acc ach), achStep_runs]

/-- The total distance aggregate is untouched by the whole loop. -/
theorem foldl_achStep_totalDistance (s : User) (sUAs : List UserAch) (d : ℚ) (r : Run)
    (l : List Achievement) (acc : DB) :
    (l.foldl (achStep s sUAs d r) acc).user.totalDistance = acc.user.totalDistance := by
  induction l generalizing acc with
  | nil => rfl
  | cons ach rest ih =>
    rw [List.foldl_cons, ih (achStep s sUAs d r acc ach)]
    exact (achStep_user_aggregates s sUAs d r acc ach).1

/-- The run counter aggregate is untouched by the whole loop. -/
theorem foldl_achStep_totalRuns (s : User) (sUAs : List UserAch) (d : ℚ) (r : Run)
    (l : List Achievement) (acc : DB) :
    (l.foldl (achStep s sUAs d r) acc).user.totalRuns = acc.user.totalRuns := by
  induction l generalizing acc with
  | nil => rfl
  | cons ach rest ih =>
    rw [List.foldl_cons, ih (achStep s sUAs d r acc ach)]
    exact (achStep_user_aggregates s sUAs d r acc ach).2.1

/-- The total time aggregate is untouched by the whole loop. -/
theorem foldl_achStep_totalTime (s : User) (sUAs : List UserAch) (d : ℚ) (r : Run)
    (l : List Achievement) (acc : DB) :
    (l.foldl (achStep s sUAs d r) acc).user.totalTime = acc.user.totalTime := by
  induction l generalizing acc with
  | nil => rfl
  | cons ach rest ih =>
    rw [List.foldl_cons, ih (achStep s sUAs d r acc ach)]
    exact (achStep_user_aggregates s sUAs d r acc ach).2.2.1

/-- The loop's total xp effect is the sum of the awarded rules' rewards. -/
theorem foldl_achStep_xp (s : User) (sUAs : List UserAch) (d : ℚ) (r : Run)
    (l : List Achievement) (acc : DB) :
    (l.foldl (achStep s sUAs d r) acc).user.xp
      = acc.user.xp
        + (l.map (fun ach => if achAwards s sUAs d r ach then ach.xpReward else 0)).sum := by
  induction l generalizing acc with
  | nil => simp
  | cons ach rest ih =>
    rw [List.foldl_cons, ih (achStep s sUAs d r acc ach), achStep_xp,
      List.map_cons, List.sum_cons]
    ring

/-- If every rule in `l` is already unlocked in the snapshot, the achievement
loop is the identity on the database. -/
theorem foldl_achStep_skip (s : User) (sUAs : List UserAch) (d : ℚ) (r : Run)
    (l : List Achievement) (acc : DB)
    (h : ∀ ach ∈ l, ((sUAs.find? (fun a => a.achievementId = ach.id)).bind
      (fun a => a.unlockedAt)).isSome = true) :
    l.foldl (achStep s sUAs d r) acc = acc := by
  induction l generalizing acc with
  | nil => rfl
  | cons ach rest ih =>
    have hstep : achStep s sUAs d r acc ach = acc := by
      simp only [achStep]
      rw [if_pos (h ach (by simp))]
    rw [List.foldl_cons, hstep]
    exact ih acc (fun a ha => h a (by simp [ha]))

/-- `jsLevel` is monotone in xp. -/
theorem jsLevel_mono {a b : ℤ} (h : a ≤ b) : jsLevel a ≤ jsLevel b := by
  unfold jsLevel
  have hq : (a : ℚ) / 1000 ≤ (b : ℚ) / 1000 := by
    apply div_le_div_of_nonneg_right ?_ ?_ |>.trans_eq rfl
    · exact_mod_cast h
    · norm_num
  exact add_le_add_right (Int.floor_le_floor hq) 1

/-! ### Theorems for the specification claims -/

/-- C9: starting from zeroed aggregates with exactly one locked TOTAL_DISTANCE
rule (threshold 5, xpReward 100), completing a 5.0 km run yields
totalDistance = 5, totalRuns = 1, xp = 150 (50 from distance plus 100 from the
unlock) and level = 1. -/
theorem complete_five_km_scenario :
    (completeRun demoDb 1 demoBody).2 = none ∧
    (completeRun demoDb 1 demoBody).1.user.totalDistance = 5 ∧
    (completeRun demoDb 1 demoBody).1.user.totalRuns = 1 ∧
    (completeRun demoDb 1 demoBody).1.user.xp = 150 ∧
    (completeRun demoDb 1 demoBody).1.user.level = 1 :=
  ⟨by with_unfolding_all rfl, by with_unfolding_all rfl, by with_unfolding_all rfl,
   by with_unfolding_all rfl, by with_unfolding_all rfl⟩

/-- C1 counterexample: completing the 5 km run unlocks the 100-XP achievement
(xp becomes 150), but deleting the run only takes back the 50 distance XP, so
xp ends at 100, not at its pre-completion value 0. -/
theorem complete_then_delete_xp_not_restored :
    (completeRun demoDb 1 demoBody).2 = none ∧
    (deleteRun (completeRun demoDb 1 demoBody).1 1).2 = none ∧
    demoDb.user.xp = 0 ∧
    (deleteRun (completeRun demoDb 1 demoBody).1 1).1.user.xp = 100 ∧
    ¬ (deleteRun (completeRun demoDb 1 demoBody).1 1).1.user.xp = demoDb.user.xp := by
  refine ⟨by with_unfolding_all rfl, by with_unfolding_all rfl, rfl,
    by with_unfolding_all rfl, fun h => ?_⟩
  have h1 : (deleteRun (completeRun demoDb 1 demoBody).1 1).1.user.xp = 100 := by
    with_unfolding_all rfl
  have h2 : demoDb.user.xp = 0 := rfl
  rw [h1, h2] at h
  exact absurd h (by decide)

/-- C1 (amended): `complete` followed by `delete` always restores
`totalDistance`, `totalRuns` and `totalTime` exactly; `xp` ends at its
pre-completion value plus exactly the sum of the `xpReward`s the completion
awards — so it is restored exactly when the completion unlocks no achievement,
and stays elevated by the awarded rewards otherwise. -/
theorem complete_then_delete_restores_aggregates
    (db : DB) (rid : ℕ) (b : CompleteBody) (run : Run)
    (hfr : findRun db.runs rid = some run)
    (hcomp : run.isCompleted = false) :
    (completeRun db rid b).2 = none ∧
    (deleteRun (completeRun db rid b).1 rid).2 = none ∧
    (deleteRun (completeRun db rid b).1 rid).1.user.totalDistance = db.user.totalDistance ∧
    (deleteRun (completeRun db rid b).1 rid).1.user.totalRuns = db.user.totalRuns ∧
    (deleteRun (completeRun db rid b).1 rid).1.user.totalTime = db.user.totalTime ∧
    (deleteRun (completeRun db rid b).1 rid).1.user.xp
      = db.user.xp + completionAwards db run b ∧
    ((∀ ach ∈ db.achievements,
        achAwards (completionUser db.user b) db.userAchievements b.distance
          (completedRunOf run db.now b) ach = false) →
      (deleteRun (completeRun db rid b).1 rid).1.user.xp = db.user.xp) := by
  have hsum0 : (∀ ach ∈ db.achievements,
      achAwards (completionUser db.user b) db.userAchievements b.distance
        (completedRunOf run db.now b) ach = false) →
      completionAwards db run b = 0 := by
    intro h
    unfold completionAwards
    apply List.sum_eq_zero
    intro x hx
    obtain ⟨ach, hach, hxeq⟩ := List.mem_map.mp hx
    rw [← hxeq, h ach hach]
    rfl
  simp only [completeRun, hfr, hcomp, Bool.false_eq_true, if_false, checkAchievements]
  simp only [deleteRun]
  rw [foldl_achStep_runs]
  rw [findRun_modifyRun_self _ _ _ _ (findRun_modifyRun_self _ _ _ _ hfr)]
  simp only [completedRunOf_isCompleted, completedRunOf_distance, completedRunOf_duration,
    foldl_achStep_totalDistance, foldl_achStep_totalRuns, foldl_achStep_totalTime,
    foldl_achStep_xp, completionUser_totalDistance, completionUser_totalRuns,
    completionUser_totalTime, completionUser_xp, completionAwards_fold, if_true]
  refine ⟨by simp, by simp, by ring, by ring, by ring, by ring, ?_⟩
  intro h
  rw [hsum0 h]
  ring

/-- C1 witness: with the sole achievement already unlocked nothing is awarded,
so complete-then-delete restores all four aggregates of `unlockedDb`. -/
theorem complete_then_delete_restores_aggregates_witness :
    (completeRun unlockedDb 1 demoBody).2 = none ∧
    (deleteRun (completeRun unlockedDb 1 demoBody).1 1).2 = none ∧
    (deleteRun (completeRun unlockedDb 1 demoBody).1 1).1.user.totalDistance
      = unlockedDb.user.totalDistance ∧
    (deleteRun (completeRun unlockedDb 1 demoBody).1 1).1.user.totalRuns
      = unlockedDb.user.totalRuns ∧
    (deleteRun (completeRun unlockedDb 1 demoBody).1 1).1.user.totalTime
      = unlockedDb.user.totalTime ∧
    (deleteRun (completeRun unlockedDb 1 demoBody).1 1).1.user.xp
      = unlockedDb.user.xp := by
  have h := complete_then_delete_restores_aggregates unlockedDb 1 demoBody demoRun
    (by with_unfolding_all rfl) rfl
  exact ⟨h.1, h.2.1, h.2.2.1, h.2.2.2.1, h.2.2.2.2.1,
    h.2.2.2.2.2.2 (by intro a ha; fin_cases ha; with_unfolding_all rfl)⟩

/-- The achievement loop never changes the stored level. -/
theorem foldl_achStep_level (s : User) (sUAs : List UserAch) (d : ℚ) (r : Run)
    (l : List Achievement) (acc : DB) :
    (l.foldl (achStep s sUAs d r) acc).user.level = acc.user.level := by
  induction l generalizing acc with
  | nil => rfl
  | cons ach rest ih =>
    rw [List.foldl_cons, ih (achStep s sUAs d r acc ach)]
    exact (achStep_user_aggregates s sUAs d r acc ach).2.2.2

/-- C2 counterexample: a user at xp = 950 / level 1 completes a zero-distance
run that unlocks a 100-XP TOTAL_RUNS achievement; xp ends at 1050 but level
stays 1, while `floor(1050/1000)+1 = 2`. -/
theorem level_invariant_broken_by_achievement_award :
    (completeRun nearLevelDb 1 zeroBody).2 = none ∧
    (completeRun nearLevelDb 1 zeroBody).1.user.xp = 1050 ∧
    (completeRun nearLevelDb 1 zeroBody).1.user.level = 1 ∧
    jsLevel 1050 = 2 ∧
    ¬ ((completeRun nearLevelDb 1 zeroBody).1.user.level
        = jsLevel ((completeRun nearLevelDb 1 zeroBody).1.user.xp)) := by
  refine ⟨by with_unfolding_all rfl, by with_unfolding_all rfl, by with_unfolding_all rfl,
    by with_unfolding_all rfl, fun h => ?_⟩
  have h1 : (completeRun nearLevelDb 1 zeroBody).1.user.level = 1 := by
    with_unfolding_all rfl
  have h2 : jsLevel ((completeRun nearLevelDb 1 zeroBody).1.user.xp) = 2 := by
    with_unfolding_all rfl
  rw [h1, h2] at h
  exact absurd h (by decide)

/-- C2 (amended): the level is written only by the completion flow, before any
achievement XP: `checkAchievements` and `delete` leave `user.level` untouched
even when they change xp, and a completion that awards no achievement XP does
reestablish `level = floor(xp/1000)+1` when it held beforehand. -/
theorem level_recomputed_only_in_completion :
    (∀ (db : DB) (d : ℚ) (r : Run),
        (checkAchievements db d r).user.level = db.user.level) ∧
    (∀ (db : DB) (rid : ℕ), ((deleteRun db rid).1).user.level = db.user.level) ∧
    (∀ (db : DB) (rid : ℕ) (b : CompleteBody) (run : Run),
        findRun db.runs rid = some run → run.isCompleted = false →
        0 ≤ b.distance → db.user.level = jsLevel db.user.xp →
        db.achievements = [] →
        (completeRun db rid b).1.user.level
          = jsLevel ((completeRun db rid b).1.user.xp)) := by
  refine ⟨?_, ?_, ?_⟩
  · intro db d r
    exact foldl_achStep_level db.user db.userAchievements d r db.achievements db
  · intro db rid
    unfold deleteRun
    cases hfr : findRun db.runs rid with
    | none => rfl
    | some run =>
      simp only
      split <;> rfl
  · intro db rid b run hfr hcomp hd hinv hach
    simp only [completeRun, hfr, hcomp, Bool.false_eq_true, if_false, checkAchievements,
      completionUser, completionIncrement]
    simp only [hach, List.foldl_nil]
    have hxp : db.user.xp ≤ db.user.xp + ⌊b.distance * 10⌋ := by
      have : (0:ℤ) ≤ ⌊b.distance * 10⌋ :=
        Int.floor_nonneg.mpr (by positivity)
      omega
    by_cases hlt : db.user.level < jsLevel (db.user.xp + ⌊b.distance * 10⌋)
    · simp [hlt]
    · have hle : jsLevel (db.user.xp + ⌊b.distance * 10⌋) ≤ db.user.level := by omega
      have hge : db.user.level ≤ jsLevel (db.user.xp + ⌊b.distance * 10⌋) := by
        rw [hinv]; exact jsLevel_mono hxp
      simp [hlt]
      omega

/-- C2 witness: the three amended statements at concrete states. -/
theorem level_recomputed_only_in_completion_witness :
    (checkAchievements unlockedDb 0 demoRun).user.level = unlockedDb.user.level ∧
    ((deleteRun completedDb 1).1).user.level = completedDb.user.level ∧
    (completeRun { demoDb with achievements := [] } 1 demoBody).1.user.level
      = jsLevel ((completeRun { demoDb with achievements := [] } 1 demoBody).1.user.xp) :=
  ⟨level_recomputed_only_in_completion.1 unlockedDb 0 demoRun,
   level_recomputed_only_in_completion.2.1 completedDb 1,
   level_recomputed_only_in_completion.2.2 { demoDb with achievements := [] } 1 demoBody
     demoRun (by with_unfolding_all rfl) rfl (by norm_num [demoBody])
     (by with_unfolding_all rfl) rfl⟩

/-- The update branch of the upsert leaves rows keyed by other achievements
untouched, hence the lookup of any other achievement is preserved. -/
theorem find?_map_upd (l : List UserAch) (k aid : ℕ) (hne : k ≠ aid)
    (p : ℚ) (su : Bool) (n : ℤ) :
    (l.map (fun a : UserAch =>
      if a.achievementId = k then
        { a with progress := p
                 unlockedAt := if su then some n else a.unlockedAt }
      else a)).find? (fun a => a.achievementId = aid)
      = l.find? (fun a => a.achievementId = aid) := by
  induction l with
  | nil => rfl
  | cons a rest ih =>
    rw [List.map_cons]
    by_cases ha : a.achievementId = k
    · have hfa : ¬ (a.achievementId = aid) := by rw [ha]; exact hne
      rw [if_pos ha, List.find?_cons_of_neg _ (by simpa using hfa),
        List.find?_cons_of_neg _ (by simpa using hfa)]
      exact ih
    · rw [if_neg ha]
      by_cases haid : a.achievementId = aid
      · rw [List.find?_cons_of_pos _ (by simpa using haid),
          List.find?_cons_of_pos _ (by simpa using haid)]
      · rw [List.find?_cons_of_neg _ (by simpa using haid),
          List.find?_cons_of_neg _ (by simpa using haid)]
        exact ih

/-- Upserting one achievement's row never disturbs the lookup of another. -/
theorem find?_upsertUA_ne (l : List UserAch) (k aid : ℕ) (hne : k ≠ aid)
    (p : ℚ) (su : Bool) (n : ℤ) :
    (upsertUA l k p su n).find? (fun a => a.achievementId = aid)
      = l.find? (fun a => a.achievementId = aid) := by
  unfold upsertUA
  split
  · exact find?_map_upd l k aid hne p su n
  · rw [List.find?_append]
    have hnone : List.find? (fun a => a.achievementId = aid)
        (([{ achievementId := k, progress := p
             unlockedAt := if su then some n else none }] : List UserAch)) = none := by
      simp [hne]
    rw [hnone, Option.or_none]

/-- One loop iteration preserves the stored row of an achievement that the
snapshot already shows as unlocked. -/
theorem achStep_find?_preserved (s : User) (sUAs : List UserAch) (d : ℚ) (r : Run)
    (acc : DB) (ach : Achievement) (aid : ℕ) (ua : UserAch)
    (hsnap : sUAs.find? (fun a => a.achievementId = aid) = some ua)
    (hunl : ua.unlockedAt.isSome = true)
    (hacc : acc.userAchievements.find? (fun a => a.achievementId = aid) = some ua) :
    (achStep s sUAs d r acc ach).userAchievements.find? (fun a => a.achievementId = aid)
      = some ua := by
  by_cases hid : ach.id = aid
  · have hskip : achStep s sUAs d r acc ach = acc := by
      simp only [achStep]
      rw [if_pos (by rw [hid, hsnap]; simpa using hunl)]
    rw [hskip]
    exact hacc
  · simp only [achStep]
    split
    · exact hacc
    · split
      · rw [find?_upsertUA_ne _ _ _ hid]
        exact hacc
      · rw [find?_upsertUA_ne _ _ _ hid]
        exact hacc

/-- The whole achievement loop preserves the stored row of an achievement that
was unlocked before the call. -/
theorem foldl_achStep_find?_preserved (s : User) (sUAs : List UserAch) (d : ℚ) (r : Run)
    (l : List Achievement) (acc : DB) (aid : ℕ) (ua : UserAch)
    (hsnap : sUAs.find? (fun a => a.achievementId = aid) = some ua)
    (hunl : ua.unlockedAt.isSome = true)
    (hacc : acc.userAchievements.find? (fun a => a.achievementId = aid) = some ua) :
    (l.foldl (achStep s sUAs d r) acc).userAchievements.find?
      (fun a => a.achievementId = aid) = some ua := by
  induction l generalizing acc with
  | nil => exact hacc
  | cons ach rest ih =>
    rw [List.foldl_cons]
    exact ih (achStep s sUAs d r acc ach)
      (achStep_find?_preserved s sUAs d r acc ach aid ua hsnap hunl hacc)

/-- C3: once an achievement's `unlockedAt` is set, any further
`checkAchievements` call leaves its stored row (progress and `unlockedAt`)
exactly as it was, and the loop iteration for that achievement is a complete
no-op on the database — in particular it never adds its `xpReward` again. -/
theorem achievement_unlock_idempotent (db : DB) (d : ℚ) (r : Run) (aid : ℕ) (ua : UserAch)
    (hs : db.userAchievements.find? (fun a => a.achievementId = aid) = some ua)
    (hunl : ua.unlockedAt.isSome = true) :
    (checkAchievements db d r).userAchievements.find? (fun a => a.achievementId = aid)
      = some ua ∧
    (∀ ach ∈ db.achievements, ach.id = aid →
      ∀ acc : DB, achStep db.user db.userAchievements d r acc ach = acc) := by
  constructor
  · exact foldl_achStep_find?_preserved db.user db.userAchievements d r
      db.achievements db aid ua hs hunl hs
  · intro ach _ hid acc
    simp only [achStep]
    rw [if_pos (by rw [hid, hs]; simpa using hunl)]

/-- C3 witness: re-evaluating against `unlockedDb` leaves the unlocked row of
achievement 1 untouched and the corresponding loop iteration is the identity. -/
theorem achievement_unlock_idempotent_witness :
    (checkAchievements unlockedDb 5 completedRun).userAchievements.find?
      (fun a => a.achievementId = 1) = some unlockedUA ∧
    achStep unlockedDb.user unlockedDb.userAchievements 5 completedRun unlockedDb demoAch
      = unlockedDb :=
  ⟨(achievement_unlock_idempotent unlockedDb 5 completedRun 1 unlockedUA rfl rfl).1,
   (achievement_unlock_idempotent unlockedDb 5 completedRun 1 unlockedUA rfl rfl).2
     demoAch (by simp [unlockedDb]) rfl unlockedDb⟩

/-- C6: on a COMPLETED run, `addCoordinates`, `pause` and `complete` each fail
with the route's invalid-state `AppError` (status 400) and return the database
exactly unchanged: no coordinates, no terminal metrics, no aggregate deltas. -/
theorem completed_run_mutations_rejected (db : DB) (rid : ℕ) (run : Run)
    (coords : List CoordInput) (b : CompleteBody)
    (hfr : findRun db.runs rid = some run)
    (hcomp : run.isCompleted = true) :
    addCoordinates db rid coords
      = (db, some ⟨"Cannot add coordinates to completed run", 400⟩) ∧
    pauseRun db rid = (db, some ⟨"Run is already completed", 400⟩) ∧
    completeRun db rid b = (db, some ⟨"Run is already completed", 400⟩) := by
  refine ⟨?_, ?_, ?_⟩
  · simp only [addCoordinates, hfr, hcomp, if_true]
  · simp only [pauseRun, hfr, hcomp, if_true]
  · simp only [completeRun, hfr, hcomp, if_true]

/-- C6 witness: the three rejections on the concrete completed run. -/
theorem completed_run_mutations_rejected_witness :
    addCoordinates completedDb 1 []
      = (completedDb, some ⟨"Cannot add coordinates to completed run", 400⟩) ∧
    pauseRun completedDb 1 = (completedDb, some ⟨"Run is already completed", 400⟩) ∧
    completeRun completedDb 1 zeroBody
      = (completedDb, some ⟨"Run is already completed", 400⟩) :=
  completed_run_mutations_rejected completedDb 1 completedRun [] zeroBody
    (by with_unfolding_all rfl) rfl

/-- C8: starting a run while supplying the valid location (0, 10) — latitude 0
is on the equator and inside the validator's [-90, 90] range — silently drops
the location: the `latitude && longitude` guard treats the numeric 0 as falsy,
so no first coordinate is recorded and the user's last-known location keeps its
old value instead of (0, 10). The run is still created and wired up. -/
theorem start_with_zero_latitude_drops_location :
    jsTruthy (some 0) = false ∧
    (findRun (startRun locatedDb 2 none (some 0) (some 10)).runs 2).map
      (fun r => r.coordinates) = some [] ∧
    (startRun locatedDb 2 none (some 0) (some 10)).user.latitude = some 42 ∧
    (startRun locatedDb 2 none (some 0) (some 10)).user.longitude = some 43 ∧
    (startRun locatedDb 2 none (some 0) (some 10)).user.isCurrentlyRunning = true ∧
    (startRun locatedDb 2 none (some 0) (some 10)).user.currentRunId = some 2 :=
  ⟨by with_unfolding_all rfl, by with_unfolding_all rfl, by with_unfolding_all rfl,
   by with_unfolding_all rfl, by with_unfolding_all rfl, by with_unfolding_all rfl⟩

/-- C10: in a coordinate batch, every optional field supplied as 0 is stored
as `null` (the `|| null` coercion), every non-zero supplied value is stored
unchanged, and the batch is appended to the run after this per-field mapping. -/
theorem zero_optional_fields_persist_null :
    (∀ x : ℚ, x ≠ 0 → jsOrNull (some x) = some x) ∧
    jsOrNull (some 0) = none ∧
    jsOrNull none = none ∧
    (∀ c : CoordInput,
      (normalizeCoord c).altitude = jsOrNull c.altitude ∧
      (normalizeCoord c).speed = jsOrNull c.speed ∧
      (normalizeCoord c).accuracy = jsOrNull c.accuracy ∧
      (normalizeCoord c).heading = jsOrNull c.heading ∧
      (normalizeCoord c).heartRate = jsOrNull c.heartRate) ∧
    (∀ (db : DB) (rid : ℕ) (coords : List CoordInput) (run : Run),
      findRun db.runs rid = some run → run.isCompleted = false →
      findRun ((addCoordinates db rid coords).1).runs rid
        = some { run with coordinates := run.coordinates ++ coords.map normalizeCoord }) := by
  refine ⟨?_, rfl, rfl, ?_, ?_⟩
  · intro x hx
    simp [jsOrNull, hx]
  · intro c
    exact ⟨rfl, rfl, rfl, rfl, rfl⟩
  · intro db rid coords run hfr hcomp
    have hni : ¬ (run.isCompleted = true) := by simp [hcomp]
    simp only [addCoordinates, hfr]
    rw [if_neg hni]
    cases hlast : coords.getLast? with
    | none =>
      exact findRun_modifyRun_self db.runs rid
        (fun r => { r with coordinates := r.coordinates ++ coords.map normalizeCoord }) run hfr
    | some lc =>
      exact findRun_modifyRun_self db.runs rid
        (fun r => { r with coordinates := r.coordinates ++ coords.map normalizeCoord }) run hfr

/-- C10 witness: a batch carrying zero and non-zero optional values is stored
with the zeros nulled and the non-zeros intact. -/
theorem zero_optional_fields_persist_null_witness :
    jsOrNull (some 7) = some 7 ∧
    jsOrNull (some 0) = none ∧
    (normalizeCoord { latitude := 1, longitude := 2, altitude := some 0
                      speed := some 3, accuracy := some 0, heading := some 0
                      heartRate := some 160, timestamp := 5 }).altitude
      = jsOrNull (some 0) ∧
    findRun ((addCoordinates demoDb 1
        [{ latitude := 1, longitude := 2, altitude := some 0
           speed := some 3, accuracy := some 0, heading := some 0
           heartRate := some 160, timestamp := 5 }]).1).runs 1
      = some { demoRun with coordinates := demoRun.coordinates ++
          [{ latitude := 1, longitude := 2, altitude := some 0
             speed := some 3, accuracy := some 0, heading := some 0
             heartRate := some 160, timestamp := 5 }].map normalizeCoord } :=
  ⟨zero_optional_fields_persist_null.1 7 (by norm_num),
   zero_optional_fields_persist_null.2.1,
   (zero_optional_fields_persist_null.2.2.2.1 _).1,
   zero_optional_fields_persist_null.2.2.2.2 demoDb 1 _ demoRun
     (by with_unfolding_all rfl) rfl⟩

/-! ### Cursor pagination (GET /feed, GET /conversations/:id) -/

/-- A row of a paginated listing, reduced to its unique id; `items` lists the
full result set in the query's ordering (e.g. `createdAt` descending). -/
structure Item where
  id : ℕ
  deriving Repr, DecidableEq

/-- `findMany({ orderBy, take: limit, ...(cursor && { cursor: { id }, skip: 1 }) })`:
without a cursor, the first `limit` rows; with one, position at the cursor row,
skip it, and return the next `limit` rows. -/
def page (items : List Item) (cursor : Option ℕ) (limit : ℕ) : List Item :=
  match cursor with
  | none => items.take limit
  | some c => ((items.dropWhile (fun x => x.id ≠ c)).drop 1).take limit

/-- `nextCursor = items.length === limit ? items[items.length-1].id : null`. -/
def nextCursor (p : List Item) (limit : ℕ) : Option ℕ :=
  if p.length = limit then p.getLast?.map (fun x => x.id) else none

/-- The client loop: fetch a page, follow `nextCursor` while it is present.
`fuel` only forces termination; `items.length + 1` is always enough. -/
def pagesFrom (items : List Item) (limit : ℕ) : Option ℕ → ℕ → List (List Item)
  | _, 0 => []
  | cursor, fuel + 1 =>
    let p := page items cursor limit
    match nextCursor p limit with
    | none => [p]
    | some c => p :: pagesFrom items limit (some c) fuel

/-- All pages obtained by paginating from the start. -/
def allPages (items : List Item) (limit : ℕ) : List (List Item) :=
  pagesFrom items limit none (items.length + 1)

/-- `GET /conversations/:id` additionally reverses each page before returning
it (`messages.reverse()`), after computing `nextCursor` on the query order. -/
def conversationPages (items : List Item) (limit : ℕ) : List (List Item) :=
  (allPages items limit).map List.reverse

/-- The cursor anchor after `k` consumed rows: no cursor at the start,
otherwise the id of row `k - 1`. -/
def cursorAt (items : List Item) : ℕ → Option ℕ
  | 0 => none
  | k + 1 => (items[k]?).map (fun x => x.id)

/-- With distinct ids, scanning for the row at index `j` drops exactly the
first `j` rows. -/
theorem dropWhile_ne_nodup (items : List Item) (j : ℕ) (x : Item)
    (hx : items[j]? = some x) (hnd : (items.map (fun a => a.id)).Nodup) :
    items.dropWhile (fun a => a.id ≠ x.id) = items.drop j := by
  induction items generalizing j with
  | nil => simp at hx
  | cons a rest ih =>
    cases j with
    | zero =>
      simp only [List.getElem?_cons_zero, Option.some.injEq] at hx
      subst hx
      rw [List.dropWhile_cons]
      simp
    | succ j =>
      simp only [List.getElem?_cons_succ] at hx
      have hxmem : x ∈ rest := by
        rcases List.getElem?_eq_some.mp hx with ⟨h, hget⟩
        exact hget ▸ List.getElem_mem h
      have hane : a.id ≠ x.id := by
        intro he
        have : a.id ∈ rest.map (fun a => a.id) :=
          he ▸ List.mem_map_of_mem (fun a => a.id) hxmem
        simp only [List.map_cons, List.nodup_cons] at hnd
        exact hnd.1 this
      rw [List.dropWhile_cons, if_pos (by simpa using hane), List.drop_succ_cons]
      exact ih j hx (by simp only [List.map_cons, List.nodup_cons] at hnd; exact hnd.2)

/-- With distinct ids, the page anchored after `k` consumed rows is the next
`limit`-row window. -/
theorem page_cursorAt (items : List Item) (limit k : ℕ)
    (hk : k ≤ items.length) (hnd : (items.map (fun a => a.id)).Nodup) :
    page items (cursorAt items k) limit = (items.drop k).take limit := by
  cases k with
  | zero => rfl
  | succ j =>
    have hj : j < items.length := by omega
    obtain ⟨x, hx⟩ : ∃ x, items[j]? = some x := by
      rcases List.getElem?_eq_some.mpr ⟨hj, rfl⟩ with h
      exact ⟨_, h⟩
    rw [cursorAt, hx]
    simp only [Option.map_some', page]
    rw [dropWhile_ne_nodup items j x hx hnd, List.drop_drop]

/-- Joining the pages that remain after `k` consumed rows yields the remaining
rows, provided the ids are distinct and the limit is positive. -/
theorem pagesFrom_flatten (items : List Item) (limit : ℕ) (hl : 0 < limit)
    (hnd : (items.map (fun a => a.id)).Nodup) :
    ∀ (fuel k : ℕ), k ≤ items.length → items.length - k < fuel →
      (pagesFrom items limit (cursorAt items k) fuel).flatten = items.drop k := by
  intro fuel
  induction fuel with
  | zero => intro k _ hfuel; omega
  | succ fuel ih =>
    intro k hk hfuel
    rw [pagesFrom]
    have hpage : page items (cursorAt items k) limit = (items.drop k).take limit :=
      page_cursorAt items limit k hk hnd
    by_cases hfull : (page items (cursorAt items k) limit).length = limit
    · have hlim : limit ≤ items.length - k := by
        rw [hpage, List.length_take, List.length_drop] at hfull
        omega
      have hlast : (page items (cursorAt items k) limit).getLast?.map (fun x => x.id)
          = cursorAt items (k + limit) := by
        rw [hpage, List.getLast?_eq_getElem?]
        have hlen : ((items.drop k).take limit).length = limit := by
          rw [List.length_take, List.length_drop]; omega
        rw [hlen]
        have : k + limit = (k + (limit - 1)) + 1 := by omega
        rw [this, cursorAt]
        rw [List.getElem?_take, if_pos (by omega), List.getElem?_drop]
      have hnc : nextCursor (page items (cursorAt items k) limit) limit
          = cursorAt items (k + limit) := by
        rw [nextCursor, if_pos hfull, hlast]
      rw [hnc]
      have hkl : k + limit ≤ items.length := by omega
      cases hcc : cursorAt items (k + limit) with
      | none =>
        exfalso
        have : 0 < k + limit := by omega
        rcases Nat.exists_eq_add_of_lt this with _
        cases hkk : k + limit with
        | zero => omega
        | succ m =>
          rw [hkk, cursorAt] at hcc
          have hm : m < items.length := by omega
          rcases List.getElem?_eq_some.mpr ⟨hm, rfl⟩ with h
          rw [h] at hcc
          simp at hcc
      | some c =>
        simp only [List.flatten_cons]
        rw [← hcc, ih (k + limit) hkl (by omega), hpage]
        have : items.drop k = (items.drop k).take limit ++ (items.drop k).drop limit := by
          rw [List.take_append_drop]
        rw [List.drop_drop] at this
        exact this.symm
    · have hnc : nextCursor (page items (cursorAt items k) limit) limit = none := by
        rw [nextCursor, if_neg hfull]
      rw [hnc]
      simp only [List.flatten_cons, List.flatten_nil, List.append_nil]
      rw [hpage]
      apply List.take_of_length_le
      rw [hpage, List.length_take, List.length_drop] at hfull
      rw [List.length_drop]
      omega

/-- Flattening per-page reversals permutes the plain flattening. -/
theorem flatten_map_reverse_perm (l : List (List Item)) :
    (l.map List.reverse).flatten.Perm l.flatten := by
  induction l with
  | nil => simp
  | cons p rest ih =>
    simp only [List.map_cons, List.flatten_cons]
    exact (p.reverse_perm.append ih)

/-- C5 (amended): with distinct ids and a positive limit, a page holds at most
`limit` rows, and a page anchored at the row with index `j` is exactly the next
window strictly after that row; `nextCursor` is the last returned id exactly on
full pages; following `nextCursor` from the start and concatenating reproduces
the full result set in order for pages returned in query order (GET /feed),
while the per-page reversal of GET /conversations/:id reproduces it only as a
permutation (no duplicates or omissions, different order). -/
theorem cursor_pagination_contract (items : List Item) (limit : ℕ)
    (hl : 0 < limit) (hnd : (items.map (fun a => a.id)).Nodup) :
    (∀ (j : ℕ) (x : Item), items[j]? = some x →
        page items (some x.id) limit = (items.drop (j + 1)).take limit) ∧
    (∀ cursor, (page items cursor limit).length ≤ limit) ∧
    (∀ p : List Item, nextCursor p limit
        = if p.length = limit then p.getLast?.map (fun x => x.id) else none) ∧
    (allPages items limit).flatten = items ∧
    (conversationPages items limit).flatten.Perm items := by
  have hjoin : (allPages items limit).flatten = items := by
    have h := pagesFrom_flatten items limit hl hnd (items.length + 1) 0
      (by omega) (by omega)
    simpa [allPages] using h
  refine ⟨?_, ?_, ?_, hjoin, ?_⟩
  · intro j x hx
    have h := page_cursorAt items limit (j + 1)
      (by rcases List.getElem?_eq_some.mp hx with ⟨h, _⟩; omega) hnd
    rw [cursorAt, hx] at h
    simpa using h
  · intro cursor
    cases cursor <;> simp [page]
  · intro p
    rfl
  · rw [conversationPages]
    refine (flatten_map_reverse_perm _).trans ?_
    rw [hjoin]

/-- C5 counterexample: three conversation messages (ids 3, 2, 1 in the
`createdAt` descending query order), page limit 2. The endpoint reverses each
page, so the concatenated responses come out as [2, 3, 1] — the same rows, but
neither in the query order nor in chronological order. -/
theorem conversations_pages_not_in_order :
    conversationPages [⟨3⟩, ⟨2⟩, ⟨1⟩] 2 = [[⟨2⟩, ⟨3⟩], [⟨1⟩]] ∧
    (conversationPages [⟨3⟩, ⟨2⟩, ⟨1⟩] 2).flatten = [⟨2⟩, ⟨3⟩, ⟨1⟩] ∧
    (conversationPages [⟨3⟩, ⟨2⟩, ⟨1⟩] 2).flatten ≠ [⟨3⟩, ⟨2⟩, ⟨1⟩] ∧
    (conversationPages [⟨3⟩, ⟨2⟩, ⟨1⟩] 2).flatten ≠ [⟨1⟩, ⟨2⟩, ⟨3⟩] := by
  refine ⟨by decide, by decide, by decide, by decide⟩

/-- C5 witness: the amended contract at a concrete three-row listing. -/
theorem cursor_pagination_contract_witness :
    (allPages [⟨1⟩, ⟨2⟩, ⟨3⟩] 2).flatten = [⟨1⟩, ⟨2⟩, ⟨3⟩] ∧
    page [⟨1⟩, ⟨2⟩, ⟨3⟩] (some 1) 2 = [⟨2⟩, ⟨3⟩] :=
  ⟨(cursor_pagination_contract [⟨1⟩, ⟨2⟩, ⟨3⟩] 2 (by norm_num) (by decide)).2.2.2.1,
   by
    have h := (cursor_pagination_contract [⟨1⟩, ⟨2⟩, ⟨3⟩] 2 (by norm_num)
      (by decide)).1 0 ⟨1⟩ (by decide)
    simpa using h⟩

/-! ### Geospatial nearby search (GET /nearby, users router) -/

/-- JS `Math.atan2(y, x)`. -/
noncomputable def atan2 (y x : ℝ) : ℝ :=
  if 0 < x then Real.arctan (y / x)
  else if x < 0 ∧ 0 ≤ y then Real.arctan (y / x) + Real.pi
  else if x < 0 then Real.arctan (y / x) - Real.pi
  else if 0 < y then Real.pi / 2
  else if y < 0 then -(Real.pi / 2)
  else 0

/-- The Haversine helper `calculateDistance` (Earth radius 6371 km). -/
noncomputable def calculateDistance (lat1 lng1 lat2 lng2 : ℝ) : ℝ :=
  let R : ℝ := 6371
  let dLat := (lat2 - lat1) * (Real.pi / 180)
  let dLng := (lng2 - lng1) * (Real.pi / 180)
  let a := Real.sin (dLat / 2) * Real.sin (dLat / 2) +
    Real.cos (lat1 * (Real.pi / 180)) * Real.cos (lat2 * (Real.pi / 180)) *
      (Real.sin (dLng / 2) * Real.sin (dLng / 2))
  let c := 2 * atan2 (Real.sqrt a) (Real.sqrt (1 - a))
  R * c

/-- `calculateDistance` from the origin to a point with equal latitude and
longitude `p` reduces to `12742 * arcsin (sin (p * π / 180) / √2)`-style form:
here stated via the haversine parameter. -/
theorem calc_zero_zero (p : ℝ) (hp : 0 < p) :
    calculateDistance 0 0 p p
      = 12742 * Real.arcsin (Real.sqrt ((Real.sin (p * (Real.pi / 180)))^2 / 2)) := by
  unfold calculateDistance
  dsimp only
  have hsimp : (p - 0) * (Real.pi / 180) = p * (Real.pi / 180) := by ring
  have hl1 : (0:ℝ) * (Real.pi / 180) = 0 := by ring
  rw [hsimp, hl1, Real.cos_zero]
  set x := p * (Real.pi / 180) / 2 with hx
  have hxpos : 0 < x := by
    have : 0 < Real.pi / 180 := by positivity
    positivity
  have hcos : Real.cos (p * (Real.pi / 180)) = Real.cos (2 * x) := by
    rw [hx]; ring_nf
  have ha : Real.sin x * Real.sin x + 1 * Real.cos (p * (Real.pi / 180)) *
      (Real.sin x * Real.sin x) = (Real.sin (2 * x))^2 / 2 := by
    rw [hcos, Real.cos_two_mul, Real.sin_two_mul]
    ring
  rw [ha]
  have h2x : 2 * x = p * (Real.pi / 180) := by rw [hx]; ring
  rw [h2x]
  set a := (Real.sin (p * (Real.pi / 180)))^2 / 2 with hadef
  have ha0 : 0 ≤ a := by positivity
  have ha1 : a < 1 := by
    have hs := Real.sin_sq_le_one (p * (Real.pi / 180))
    rw [hadef]
    nlinarith
  have hx1a : 0 < Real.sqrt (1 - a) := Real.sqrt_pos.mpr (by linarith)
  rw [atan2, if_pos hx1a]
  have hmem : Real.sqrt a ∈ Set.Ioo (-1:ℝ) 1 := by
    constructor
    · have := Real.sqrt_nonneg a; linarith
    · rw [show (1:ℝ) = 1^2 by norm_num] at ha1 ⊢
      exact (Real.sqrt_lt' (by norm_num)).mpr (by nlinarith [Real.sq_sqrt ha0])
  rw [Real.arcsin_eq_arctan hmem, Real.sq_sqrt ha0]
  ring



/-- `arcsin` dominates the identity on `[0, 1]`. -/
theorem le_arcsin {t : ℝ} (h0 : 0 ≤ t) (h1 : t ≤ 1) : t ≤ Real.arcsin t := by
  have hs := Real.sin_arcsin (by linarith) h1
  have harc : 0 ≤ Real.arcsin t := Real.arcsin_nonneg.mpr h0
  calc t = Real.sin (Real.arcsin t) := hs.symm
  _ ≤ Real.arcsin t := Real.sin_le harc

/-- If `t` is below `sin c` for a `c` in the first quadrant, `arcsin t < c`. -/
theorem arcsin_lt_of_lt_sin {t c : ℝ} (h0 : 0 ≤ t) (ht1 : t ≤ 1) (hc : 0 < c)
    (hcle : c ≤ Real.pi / 2) (h : t < Real.sin c) : Real.arcsin t < c := by
  have hmono := Real.strictMonoOn_arcsin
    (Set.mem_Icc.mpr ⟨by linarith, ht1⟩)
    (Set.mem_Icc.mpr ⟨by linarith [Real.neg_one_le_sin c], Real.sin_le_one c⟩) h
  rwa [Real.arcsin_sin (by linarith) hcle] at hmono

set_option maxHeartbeats 1600000 in
/-- The candidate at latitude = longitude = 0.0318 seen from the origin:
its true Haversine distance lies strictly between 5 and 5.005 km. -/
theorem dist_badCand_bounds :
    5 < calculateDistance 0 0 (159/5000) (159/5000) ∧
    calculateDistance 0 0 (159/5000) (159/5000) < 1001/200 := by
  have hpi1 : 3.141592 < Real.pi := Real.pi_gt_d6
  have hpi2 : Real.pi < 3.141593 := Real.pi_lt_d6
  have hrw := calc_zero_zero (159/5000) (by norm_num)
  rw [hrw]
  set s := (159/5000 : ℝ) * (Real.pi / 180) with hs
  have hs_lo : (53:ℝ) * 3.141592 / 300000 < s := by rw [hs]; nlinarith
  have hs_hi : s < (53:ℝ) * 3.141593 / 300000 := by rw [hs]; nlinarith
  have hs_pos : (0:ℝ) < s := by nlinarith
  have hs_le1 : s ≤ 1 := by nlinarith
  have hsin_ub : Real.sin s < s := Real.sin_lt hs_pos
  have hsin_lb : s - s ^ 3 / 4 < Real.sin s := Real.sin_gt_sub_cube hs_pos hs_le1
  have hs3 : s ^ 3 ≤ s := by nlinarith [sq_nonneg s]
  have hsin_pos : 0 < Real.sin s := by nlinarith
  have hcube : s ^ 3 < ((53:ℝ) * 3.141593 / 300000) ^ 3 :=
    pow_lt_pow_left₀ hs_hi (le_of_lt hs_pos) (by norm_num)
  have hm : (55501:ℝ) / 10 ^ 8 < Real.sin s := by nlinarith
  set a := (Real.sin s) ^ 2 / 2 with ha
  have ha0 : (0:ℝ) ≤ a := by positivity
  have ha_lb : (1539802:ℝ) / 10 ^ 13 < a := by
    rw [ha]
    nlinarith [sq_nonneg (Real.sin s - 55501 / 10 ^ 8)]
  have ha_ub : a < (1540210:ℝ) / 10 ^ 13 := by
    rw [ha]
    nlinarith [sq_nonneg (s - 53 * 3.141593 / 300000)]
  have hsqa0 : 0 ≤ Real.sqrt a := Real.sqrt_nonneg a
  have hsqa1 : Real.sqrt a ≤ 1 := Real.sqrt_le_one.mpr (by nlinarith)
  constructor
  · have h1 : (5:ℝ) / 12742 < Real.sqrt a :=
      (Real.lt_sqrt (by norm_num)).mpr (by nlinarith)
    have h2 := le_arcsin hsqa0 hsqa1
    nlinarith
  · have hθ : Real.arcsin (Real.sqrt a) < 1001 / 2548400 := by
      apply arcsin_lt_of_lt_sin hsqa0 hsqa1 (by norm_num) (by nlinarith)
      have hc0 : ((1001:ℝ)/2548400) - ((1001:ℝ)/2548400) ^ 3 / 4
          < Real.sin (1001/2548400) :=
        Real.sin_gt_sub_cube (by norm_num) (by norm_num)
      have hc0ge : (3927954:ℝ) / 10 ^ 10
          ≤ ((1001:ℝ)/2548400) - ((1001:ℝ)/2548400) ^ 3 / 4 := by norm_num
      have hsq : Real.sqrt a < (3927954:ℝ) / 10 ^ 10 := by
        apply (Real.sqrt_lt' (by norm_num)).mpr
        nlinarith
      linarith
    nlinarith



/-- JS `Math.round` (floor of x + 1/2). -/
noncomputable def jsRound (x : ℝ) : ℤ := ⌊x + 1 / 2⌋

/-- `Math.round(distance * 100) / 100`. -/
noncomputable def round2 (d : ℝ) : ℝ := (jsRound (d * 100) : ℝ) / 100

/-- A stored candidate row for the nearby query. -/
structure GeoUser where
  id : ℕ
  isPublic : Bool
  isLocationPublic : Bool
  latitude : ℝ
  longitude : ℝ
  lastLocationUpdate : ℝ

/-- A row of the nearby response. -/
structure NearbyUser where
  id : ℕ
  latitude : ℝ
  longitude : ℝ
  distance : ℝ

/-- The divisor of the longitude delta: `Math.cos(lat * Math.PI / 180)`,
taken straight from the bounding-box computation — no clamping. -/
noncomputable def lngDeltaDivisor (lat : ℝ) : ℝ := Real.cos (lat * (Real.pi / 180))

/-- `latDelta = (radiusKm / earthRadius) * (180 / Math.PI)`. -/
noncomputable def latDeltaOf (radiusKm : ℝ) : ℝ := radiusKm / 6371 * (180 / Real.pi)

/-- `lngDelta = (radiusKm / earthRadius) * (180 / Math.PI) / Math.cos(lat * Math.PI / 180)`. -/
noncomputable def lngDeltaOf (radiusKm lat : ℝ) : ℝ :=
  radiusKm / 6371 * (180 / Real.pi) / lngDeltaDivisor lat

/-- The `findMany` where-clause of GET /nearby: caller excluded, public and
location-public, inside the bounding box, location fresher than 24 h. -/
def geoPrefilter (callerId : ℕ) (lat lng radiusKm now : ℝ) (u : GeoUser) : Prop :=
  u.id ≠ callerId ∧ u.isPublic = true ∧ u.isLocationPublic = true ∧
  lat - latDeltaOf radiusKm ≤ u.latitude ∧ u.latitude ≤ lat + latDeltaOf radiusKm ∧
  lng - lngDeltaOf radiusKm lat ≤ u.longitude ∧ u.longitude ≤ lng + lngDeltaOf radiusKm lat ∧
  now - 86400000 ≤ u.lastLocationUpdate

open Classical in
/-- GET /nearby: bounding-box prefilter, Haversine distance rounded to two
decimals, filter on the rounded distance, sort ascending by distance. -/
noncomputable def nearby (callerId : ℕ) (lat lng radiusKm now : ℝ)
    (users : List GeoUser) : List NearbyUser :=
  let candidates := users.filter (fun u => decide (geoPrefilter callerId lat lng radiusKm now u))
  let withDistance := candidates.map (fun u =>
    { id := u.id, latitude := u.latitude, longitude := u.longitude
      distance := round2 (calculateDistance lat lng u.latitude u.longitude) : NearbyUser })
  let kept := withDistance.filter (fun u => decide (u.distance ≤ radiusKm))
  kept.mergeSort (fun a b => decide (a.distance ≤ b.distance))

/-- The rounded distance undershoots the true distance by less than 1/200. -/
theorem lt_round2_add (d : ℝ) : d < round2 d + 1 / 200 := by
  unfold round2 jsRound
  have h := Int.sub_one_lt_floor (d * 100 + 1 / 2)
  have : d * 100 - 1 / 2 < (⌊d * 100 + 1 / 2⌋ : ℝ) := by linarith
  linarith

/-- C4 (amended): every row returned by `nearby` carries the Haversine
distance of its own coordinates rounded to two decimals; that rounded value is
at most `radiusKm` (so the true distance is below `radiusKm + 0.005`, but may
exceed `radiusKm` itself); and the response is sorted ascending by the rounded
distance. -/
theorem nearby_rounded_distance_bound (callerId : ℕ) (lat lng radiusKm now : ℝ)
    (users : List GeoUser) (r : NearbyUser)
    (hr : r ∈ nearby callerId lat lng radiusKm now users) :
    r.distance ≤ radiusKm ∧
    r.distance = round2 (calculateDistance lat lng r.latitude r.longitude) ∧
    calculateDistance lat lng r.latitude r.longitude < radiusKm + 1 / 200 ∧
    (nearby callerId lat lng radiusKm now users).Pairwise
      (fun a b => a.distance ≤ b.distance) := by
  classical
  unfold nearby at hr
  rw [(List.mergeSort_perm _ _).mem_iff] at hr
  rw [List.mem_filter] at hr
  obtain ⟨hmem, hdec⟩ := hr
  have hle : r.distance ≤ radiusKm := of_decide_eq_true hdec
  rw [List.mem_map] at hmem
  obtain ⟨u, _, hu⟩ := hmem
  have hdist : r.distance = round2 (calculateDistance lat lng r.latitude r.longitude) := by
    rw [← hu]
  refine ⟨hle, hdist, ?_, ?_⟩
  · have h := lt_round2_add (calculateDistance lat lng r.latitude r.longitude)
    rw [← hdist] at h
    linarith
  · unfold nearby
    dsimp only
    refine List.Pairwise.imp ?_ (List.sorted_mergeSort ?_ ?_ _)
    · exact fun h => of_decide_eq_true h
    · exact fun a b c hab hbc =>
        decide_eq_true (le_trans (of_decide_eq_true hab) (of_decide_eq_true hbc))
    · exact fun a b => by rcases le_total a.distance b.distance with h | h <;> simp [h]



/-- The candidate sitting near the corner of the bounding box: latitude and
longitude 0.0318, public, fresh location. -/
noncomputable def badCand : GeoUser :=
  { id := 7, isPublic := true, isLocationPublic := true
    latitude := 159/5000, longitude := 159/5000, lastLocationUpdate := 0 }

/-- At the equator the longitude delta equals the latitude delta. -/
theorem lngDeltaOf_zero (radiusKm : ℝ) : lngDeltaOf radiusKm 0 = latDeltaOf radiusKm := by
  unfold lngDeltaOf latDeltaOf lngDeltaDivisor
  norm_num

/-- The bad candidate passes the bounding-box prefilter of a 5 km query at the
origin. -/
theorem badCand_prefilter : geoPrefilter 1 0 0 5 0 badCand := by
  have hpi1 : 3.141592 < Real.pi := Real.pi_gt_d6
  have hpi2 : Real.pi < 3.141593 := Real.pi_lt_d6
  have hpip : 0 < Real.pi := Real.pi_pos
  have hlat : latDeltaOf 5 = 900 / (6371 * Real.pi) := by
    unfold latDeltaOf
    field_simp
    ring
  have hub : (159:ℝ)/5000 ≤ 900 / (6371 * Real.pi) := by
    rw [le_div_iff₀ (by positivity)]
    nlinarith
  have hpos : (0:ℝ) < 900 / (6371 * Real.pi) := by positivity
  refine ⟨by norm_num [badCand], rfl, rfl, ?_, ?_, ?_, ?_, by norm_num [badCand]⟩
  · show (0:ℝ) - latDeltaOf 5 ≤ 159/5000
    rw [hlat]; nlinarith
  · show (159:ℝ)/5000 ≤ 0 + latDeltaOf 5
    rw [hlat]; nlinarith
  · show (0:ℝ) - lngDeltaOf 5 0 ≤ 159/5000
    rw [lngDeltaOf_zero, hlat]; nlinarith
  · show (159:ℝ)/5000 ≤ 0 + lngDeltaOf 5 0
    rw [lngDeltaOf_zero, hlat]; nlinarith

/-- The rounded distance of the bad candidate is exactly 5.00. -/
theorem badCand_round2 :
    round2 (calculateDistance 0 0 (159/5000) (159/5000)) = 5 := by
  obtain ⟨hlo, hhi⟩ := dist_badCand_bounds
  unfold round2 jsRound
  have hfl : ⌊calculateDistance 0 0 (159/5000) (159/5000) * 100 + 1/2⌋ = 500 := by
    apply Int.floor_eq_iff.mpr
    constructor
    · push_cast; linarith
    · push_cast; linarith
  rw [hfl]
  norm_num

open Classical in
/-- The nearby result for the single bad candidate is that candidate with
rounded distance 5.00. -/
theorem nearby_badCand :
    nearby 1 0 0 5 0 [badCand]
      = [{ id := 7, latitude := 159/5000, longitude := 159/5000, distance := 5 }] := by
  classical
  unfold nearby
  dsimp only
  rw [List.filter_cons, if_pos (by exact decide_eq_true badCand_prefilter)]
  rw [List.filter_nil, List.map_cons, List.map_nil]
  have hx : ({ id := badCand.id, latitude := badCand.latitude, longitude := badCand.longitude
               distance := round2 (calculateDistance 0 0 badCand.latitude badCand.longitude) }
      : NearbyUser)
      = { id := 7, latitude := 159/5000, longitude := 159/5000, distance := 5 } := by
    have : round2 (calculateDistance 0 0 badCand.latitude badCand.longitude) = 5 :=
      badCand_round2
    rw [show badCand.latitude = 159/5000 from rfl, show badCand.longitude = 159/5000 from rfl]
    rw [badCand_round2]
    rfl
  rw [hx]
  rw [List.filter_cons, if_pos (by exact decide_eq_true (by norm_num))]
  rw [List.filter_nil]
  exact List.perm_singleton.mp (List.mergeSort_perm _ _)

/-- C4 counterexample: `nearby` at the origin with radius 5 returns candidate 7
although its true great-circle distance exceeds 5 km — the filter runs on the
distance rounded to 2 decimals (5.00), not on the true distance. -/
theorem nearby_returns_candidate_beyond_radius :
    ((1:ℝ)/10 ≤ 5 ∧ (5:ℝ) ≤ 50) ∧
    (nearby 1 0 0 5 0 [badCand]).map (fun r => r.id) = [7] ∧
    5 < calculateDistance 0 0 badCand.latitude badCand.longitude := by
  refine ⟨⟨by norm_num, by norm_num⟩, ?_, ?_⟩
  · rw [nearby_badCand]; rfl
  · exact dist_badCand_bounds.1



/-- A candidate standing exactly at the query center. -/
noncomputable def selfCand : GeoUser :=
  { id := 2, isPublic := true, isLocationPublic := true
    latitude := 0, longitude := 0, lastLocationUpdate := 0 }

/-- Haversine distance from the origin to itself is zero. -/
theorem calc_origin : calculateDistance 0 0 0 0 = 0 := by
  unfold calculateDistance atan2
  norm_num

/-- Rounding zero gives zero. -/
theorem round2_zero : round2 0 = 0 := by
  unfold round2 jsRound
  norm_num

open Classical in
/-- The nearby result for the center candidate. -/
theorem nearby_selfCand :
    nearby 1 0 0 1 0 [selfCand]
      = [{ id := 2, latitude := 0, longitude := 0, distance := 0 }] := by
  classical
  have hpip : 0 < Real.pi := Real.pi_pos
  have hpf : geoPrefilter 1 0 0 1 0 selfCand := by
    have hpos : 0 < latDeltaOf 1 := by
      unfold latDeltaOf; positivity
    refine ⟨by norm_num [selfCand], rfl, rfl, ?_, ?_, ?_, ?_, by norm_num [selfCand]⟩
    · show (0:ℝ) - latDeltaOf 1 ≤ 0
      linarith
    · show (0:ℝ) ≤ 0 + latDeltaOf 1
      linarith
    · show (0:ℝ) - lngDeltaOf 1 0 ≤ 0
      rw [lngDeltaOf_zero]; linarith
    · show (0:ℝ) ≤ 0 + lngDeltaOf 1 0
      rw [lngDeltaOf_zero]; linarith
  unfold nearby
  dsimp only
  rw [List.filter_cons, if_pos (by exact decide_eq_true hpf)]
  rw [List.filter_nil, List.map_cons, List.map_nil]
  have hx : ({ id := selfCand.id, latitude := selfCand.latitude, longitude := selfCand.longitude
               distance := round2 (calculateDistance 0 0 selfCand.latitude selfCand.longitude) }
      : NearbyUser)
      = { id := 2, latitude := 0, longitude := 0, distance := 0 } := by
    rw [show selfCand.latitude = 0 from rfl, show selfCand.longitude = 0 from rfl,
      calc_origin, round2_zero]
    rfl
  rw [hx]
  rw [List.filter_cons, if_pos (by exact decide_eq_true (by norm_num))]
  rw [List.filter_nil]
  exact List.perm_singleton.mp (List.mergeSort_perm _ _)

/-- C4 witness: the amended statement applied to the candidate standing at the
center of a 1 km query. -/
theorem nearby_rounded_distance_bound_witness :
    ({ id := 2, latitude := 0, longitude := 0, distance := 0 } : NearbyUser).distance ≤ (1:ℝ) ∧
    calculateDistance 0 0 0 0 < 1 + 1/200 := by
  have hr : ({ id := 2, latitude := 0, longitude := 0, distance := 0 } : NearbyUser)
      ∈ nearby 1 0 0 1 0 [selfCand] := by
    rw [nearby_selfCand]
    exact List.mem_singleton.mpr rfl
  have h := nearby_rounded_distance_bound 1 0 0 1 0 [selfCand] _ hr
  exact ⟨h.1, h.2.2.1⟩

/-- C7 counterexample: there is no clamp — the longitude-delta divisor, taken
verbatim from the code as `cos(lat * π/180)`, is exactly zero at latitude 90,
inside the validator's admissible latitude range. -/
theorem lng_delta_divisor_vanishes_at_pole :
    ¬ (∀ lat : ℝ, -90 ≤ lat → lat ≤ 90 → lngDeltaDivisor lat ≠ 0) := by
  intro h
  apply h 90 (by norm_num) (by norm_num)
  unfold lngDeltaDivisor
  rw [show (90:ℝ) * (Real.pi/180) = Real.pi/2 from by ring, Real.cos_pi_div_two]

/-- C7 (amended): the divisor `cos(lat * π/180)` is used unclamped: it
vanishes at both poles (so `lngDelta` is a division by zero there) and is
positive only strictly inside the latitude range. -/
theorem lng_delta_divisor_unclamped :
    lngDeltaDivisor 90 = 0 ∧ lngDeltaDivisor (-90) = 0 ∧
    ∀ lat : ℝ, -90 < lat → lat < 90 → 0 < lngDeltaDivisor lat := by
  refine ⟨?_, ?_, ?_⟩
  · unfold lngDeltaDivisor
    rw [show (90:ℝ) * (Real.pi/180) = Real.pi/2 from by ring, Real.cos_pi_div_two]
  · unfold lngDeltaDivisor
    rw [show (-90:ℝ) * (Real.pi/180) = -(Real.pi/2) from by ring, Real.cos_neg,
      Real.cos_pi_div_two]
  · intro lat h1 h2
    unfold lngDeltaDivisor
    apply Real.cos_pos_of_mem_Ioo
    have hpip : 0 < Real.pi := Real.pi_pos
    constructor
    · show -(Real.pi/2) < lat * (Real.pi/180)
      nlinarith
    · show lat * (Real.pi/180) < Real.pi/2
      nlinarith

/-- C7 witness: the divisor at the pole and at the equator. -/
theorem lng_delta_divisor_unclamped_witness :
    lngDeltaDivisor 90 = 0 ∧ 0 < lngDeltaDivisor 0 :=
  ⟨lng_delta_divisor_unclamped.1,
   lng_delta_divisor_unclamped.2.2 0 (by norm_num) (by norm_num)⟩

end Runner
